import Mathlib

/-!
Verification development for the lesson-view core of the repository:
the entitlement policy evaluator (`checkDownloadPermission`), the media
reference resolver (Drive / YouTube URL parsing and download links), and
the quiz session engine (answer map, batching, scoring, persistence,
resume, session timer).  Every definition is a shallow embedding of the
corresponding code in `src/components/LessonView.tsx`.
-/

namespace LessonView

/-! ### JavaScript string primitives used by the component

`jsToUpper` / `jsToLower` model `String.prototype.toUpperCase` /
`toLowerCase` on the ASCII strings the component compares against;
`jsIncludes` models `String.prototype.includes`. -/

def jsUpperChar (c : Char) : Char :=
  if c.isLower then Char.ofNat (c.toNat - 32) else c

def jsLowerChar (c : Char) : Char :=
  if c.isUpper then Char.ofNat (c.toNat + 32) else c

def jsToUpper (s : String) : String := String.mk (s.data.map jsUpperChar)

def jsToLower (s : String) : String := String.mk (s.data.map jsLowerChar)

/-- Predicate `occursIn needle hay`: true when `needle` occurs as a contiguous
segment of `hay` (the semantics of JavaScript `hay.includes(needle)`). -/
def occursIn (needle : List Char) : List Char → Bool
  | [] => needle.isEmpty
  | hay@(_ :: rest) => needle.isPrefixOf hay || occursIn needle rest

def jsIncludes (hay needle : String) : Bool := occursIn needle.data hay.data

/-! ### Entitlement policy evaluator (`checkDownloadPermission`, lines 64-84) -/

/-- The `contentType` argument of `checkDownloadPermission`: `'VIDEO' | 'PDF'`. -/
inductive ContentKind where
  | VIDEO
  | PDF
deriving DecidableEq, Repr

/-- The slice of the `User` record the permission checker reads:
`user.subscriptionPlan` (`none` models a missing/null plan). -/
structure User where
  subscriptionPlan : Option String
deriving DecidableEq, Repr

/-- The decision taken on the upper-cased plan string (the body of
`checkDownloadPermission` after `const plan = user.subscriptionPlan.toUpperCase()`). -/
def planDecision (plan : String) (contentType : ContentKind) (isUltra : Bool) : Bool :=
  if plan = "WEEKLY" ∨ plan = "MONTHLY" then false
  else if plan = "QUARTERLY" ∨ plan = "3_MONTHS" ∨ plan = "3 MONTHS" then
    if contentType = ContentKind.VIDEO ∧ isUltra = true then false else true
  else if plan = "YEARLY" ∨ plan = "LIFETIME" ∨ plan = "1_YEAR" ∨ plan = "1 YEAR" then true
  else false

/-- Function `checkDownloadPermission(contentType, isUltra)` of lines 64-84:
a missing user or missing plan is denied, otherwise the decision table
over the upper-cased plan applies. -/
def checkDownloadPermission (user : Option User) (contentType : ContentKind)
    (isUltra : Bool) : Bool :=
  match user with
  | none => false
  | some u =>
    match u.subscriptionPlan with
    | none => false
    | some planRaw => planDecision (jsToUpper planRaw) contentType isUltra

/-! ### Drive id extraction (`url.match(/[-\w]{25,}/)`, lines 89, 282, 406) -/

/-- A character matched by the regex character class `[-\w]`:
word characters (letters, digits, underscore) and the hyphen. -/
def tokenChar (c : Char) : Bool := c = '-' || c = '_' || c.isAlphanum

/-- Scanner for the regex `[-\w]{25,}`: `acc` holds (reversed) the token
characters of the run currently being read.  A run that reaches a
non-token character (or the end of the string) with length `≥ 25` is
returned whole; shorter runs are discarded and the scan restarts. -/
def firstRunAux : List Char → List Char → Option (List Char)
  | acc, [] => if 25 ≤ acc.length then some acc.reverse else none
  | acc, c :: rest =>
    if tokenChar c = true then firstRunAux (c :: acc) rest
    else if 25 ≤ acc.length then some acc.reverse
    else firstRunAux [] rest

/-- Model of `url.match(/[-\w]\x7b25,\x7d/)`: the first maximal run of 25 or more
word-characters/hyphens, or `none`. -/
def driveIdMatch (s : List Char) : Option (List Char) := firstRunAux [] s

/-- Whether the string contains any window of 25 consecutive
word-characters/hyphens, i.e. whether the regex `[-\w]{25,}` can match. -/
def hasRun25 : List Char → Bool
  | [] => false
  | l@(_ :: rest) =>
    (decide (25 ≤ l.length) && (l.take 25).all tokenChar) || hasRun25 rest

/-- Function `getDriveDownloadLink` of lines 87-91. -/
def getDriveDownloadLink (url : String) : Option String :=
  (driveIdMatch url.data).map
    (fun id => "https://drive.google.com/u/0/uc?id=" ++ String.mk id ++ "&export=download")

/-- The list ends with a non-token character. -/
def NonTokenTail (pre : List Char) : Prop :=
  ∃ d p0, pre = p0 ++ [d] ∧ tokenChar d = false

/-- The list is empty or begins with a non-token character. -/
def NonTokenHead (post : List Char) : Prop :=
  post = [] ∨ ∃ e p0, post = e :: p0 ∧ tokenChar e = false

/-! ### YouTube id extraction (the regex at line 293) -/

/-- A character matched by `\S` (not whitespace). -/
def nonSpaceChar (c : Char) : Bool :=
  !(c = ' ' || c = '\t' || c = '\n' || c = '\r' || c = '\x0b' || c = '\x0c')

/-- The capture group `([\w-]{11})`: exactly the next 11 characters,
all word-characters/hyphens. -/
def take11Token (l : List Char) : Option (List Char) :=
  let t := l.take 11
  if t.length = 11 && t.all tokenChar then some t else none

/-- Backtracking for the `\/user\/\S+([\w-]{11})` alternative: the greedy
`\S+` consumes as much of the non-space run `m` as possible while still
leaving 11 word-characters/hyphens for the capture; splits are tried from
the largest downwards (at least one character must be consumed). -/
def ytUserGo (m : List Char) : Nat → Option (List Char)
  | 0 => none
  | a + 1 =>
    let w := (m.drop (a + 1)).take 11
    if w.length = 11 && w.all tokenChar then some w else ytUserGo m a

def ytUserScan (m : List Char) : Option (List Char) := ytUserGo m m.length

/-- One attempt of the YouTube regex at a given start position `s`
(the suffix of the URL starting there), alternatives in source order. -/
def ytAlt (s : List Char) : Option (List Char) :=
  if ("youtu.be/".data).isPrefixOf s then take11Token (s.drop 9)
  else if ("youtube.com".data).isPrefixOf s then
    let r := s.drop 11
    if ("/embed/".data).isPrefixOf r then take11Token (r.drop 7)
    else if ("/v/".data).isPrefixOf r then take11Token (r.drop 3)
    else if ("/watch?v=".data).isPrefixOf r then take11Token (r.drop 9)
    else if ("/user/".data).isPrefixOf r then ytUserScan ((r.drop 6).takeWhile nonSpaceChar)
    else if ("/ytscreeningroom?v=".data).isPrefixOf r then take11Token (r.drop 19)
    else none
  else none

/-- Leftmost-match scan for the YouTube regex. -/
def ytMatchGo : List Char → Option (List Char)
  | [] => none
  | s@(_ :: rest) =>
    match ytAlt s with
    | some id => some id
    | none => ytMatchGo rest

/-- Model of the YouTube id regex of line 293 (shapes `youtu.be/`,
`youtube.com/embed/`, `/v/`, `/watch?v=`, `/user/`, `/ytscreeningroom?v=`),
restricted to its capture group. -/
def ytMatch (url : String) : Option (List Char) := ytMatchGo url.data

/-! ### Video URL resolution (lines 262-303) -/

/-- The values computed by the video renderer for the current URL. -/
structure ResolvedVideo where
  embedUrl : String
  downloadUrl : Option String
  isDriveVideo : Bool
  isYouTubeVideo : Bool
deriving DecidableEq, Repr

/-- The "advanced URL parser" of lines 279-298: Drive URLs are rewritten
to the `/file/d/<id>/preview` form and, only when `canDownload`, given the
`uc?id=<id>&export=download` link; YouTube URLs are rewritten to the embed
form and their download URL is set to `none` unconditionally; any other
URL passes through untouched with no download URL. -/
def resolveVideo (url : String) (canDownload : Bool) : ResolvedVideo :=
  if jsIncludes url "drive.google.com" then
    match driveIdMatch url.data with
    | some id =>
      { embedUrl := "https://drive.google.com/file/d/" ++ String.mk id ++ "/preview"
        downloadUrl :=
          if canDownload then
            some ("https://drive.google.com/u/0/uc?id=" ++ String.mk id ++ "&export=download")
          else none
        isDriveVideo := true
        isYouTubeVideo := false }
    | none =>
      { embedUrl := url, downloadUrl := none, isDriveVideo := true, isYouTubeVideo := false }
  else if jsIncludes url "youtube.com" || jsIncludes url "youtu.be" then
    { embedUrl :=
        match ytMatch url with
        | some id => "https://www.youtube.com/embed/" ++ String.mk id ++ "?autoplay=1"
        | none => url
      downloadUrl := none
      isDriveVideo := false
      isYouTubeVideo := true }
  else
    { embedUrl := url, downloadUrl := none, isDriveVideo := false, isYouTubeVideo := false }

/-- Function `secureSrc` of lines 301-303. -/
def secureSrc (r : ResolvedVideo) : String :=
  if r.isYouTubeVideo then
    r.embedUrl ++ "&modestbranding=1&rel=0&iv_load_policy=3&controls=1&disablekb=1&showinfo=0&fs=0"
  else r.embedUrl

/-! ### PDF download link (lines 398-410) -/

/-- The content metadata the permission wiring reads (`content.title`,
`content.tags`; `none` models an absent `tags` field). -/
structure ContentMeta where
  title : String
  tags : Option (List String)
deriving DecidableEq, Repr

/-- Flag `isUltraContent` of line 275. -/
def isUltraContent (c : ContentMeta) : Bool :=
  jsIncludes (jsToLower c.title) "ultra" ||
    (match c.tags with
     | some ts => ts.contains "ultra"
     | none => false)

/-- Decision `canDownloadPdf = checkDownloadPermission(PDF, false)` of line 401:
the PDF permission check is invoked with the premium flag hard-coded to
`false`, so it ignores the content metadata entirely. -/
def pdfDecision (user : Option User) (_c : ContentMeta) : Bool :=
  checkDownloadPermission user ContentKind.PDF false

/-- Value `pdfDownloadLink` of lines 402-410. -/
def pdfDownloadLink (contentStr : String) (canDownloadPdf : Bool) : Option String :=
  if jsIncludes contentStr "drive.google.com" && canDownloadPdf then
    (driveIdMatch contentStr.data).map
      (fun id => "https://drive.google.com/u/0/uc?id=" ++ String.mk id ++ "&export=download")
  else if canDownloadPdf then some contentStr
  else none

/-! ### Quiz session engine (lines 45-53, 183-254) -/

/-- An `MCQItem` as the component reads it: `question`, `options`,
`correctAnswer`, `explanation`. -/
structure MCQItem where
  question : String
  options : List String
  correctAnswer : Nat
  explanation : String
deriving DecidableEq, Repr

/-- Constant `BATCH_SIZE` of line 53. -/
def BATCH_SIZE : Nat := 50

/-- The object written to `localStorage` (line 193):
`{ mcqState, batchIndex, localMcqData }`. -/
structure Snapshot where
  mcqState : List (Nat × Nat)
  batchIndex : Nat
  localMcqData : List MCQItem
deriving DecidableEq, Repr

/-- The session state the MCQ renderer manipulates.  `mcqState` is the
answer map (a finite map from question index in `localMcqData` order to
the chosen option index, represented as an association list), and
`store` is the content of `localStorage` under the session's key. -/
structure MCQSession where
  mcqState : List (Nat × Nat)
  localMcqData : List MCQItem
  batchIndex : Nat
  showResults : Bool
  store : Option Snapshot
deriving DecidableEq, Repr

/-- Value `currentBatchData = localMcqData.slice(batchIndex * BATCH_SIZE, (batchIndex + 1) * BATCH_SIZE)`
of line 204. -/
def currentBatchData (s : MCQSession) : List MCQItem :=
  (s.localMcqData.drop (s.batchIndex * BATCH_SIZE)).take BATCH_SIZE

/-- The `score` reducer of line 205, with the answer map and question
list as explicit inputs.  Each answered key `k` contributes 1 exactly
when the stored option equals `localMcqData[k].correctAnswer`; indexing
a key outside the question list is an error (`none`), as the
corresponding JavaScript property access would throw. -/
def scoreGo (qs : List MCQItem) : List (Nat × Nat) → Nat → Option Nat
  | [], acc => some acc
  | kv :: rest, acc =>
    match qs[kv.1]? with
    | some q => scoreGo qs rest (acc + if kv.2 = q.correctAnswer then 1 else 0)
    | none => none

def score (answers : List (Nat × Nat)) (qs : List MCQItem) : Option Nat :=
  scoreGo qs answers 0

/-- Value `attemptedCount = Object.keys(mcqState).length` of line 206. -/
def attemptedCount (s : MCQSession) : Nat := s.mcqState.length

/-- Value `canSubmit = attemptedCount >= Math.min(50, localMcqData.length)` of line 207. -/
def canSubmit (s : MCQSession) : Bool :=
  decide (Nat.min 50 s.localMcqData.length ≤ attemptedCount s)

/-- The persistence effect of lines 192-194: after a state mutation,
if results are not shown and at least one answer exists, the snapshot
`{ mcqState, batchIndex, localMcqData }` is written to storage. -/
def persistEffect (s : MCQSession) : MCQSession :=
  if s.showResults = false ∧ 0 < s.mcqState.length then
    { s with store := some ⟨s.mcqState, s.batchIndex, s.localMcqData⟩ }
  else s

/-- Recording an answer (the option button of line 243): a no-op when the
button is disabled (`userAnswer !== undefined || showResults`), otherwise
the entry `idx ↦ oIdx` is added and the persistence effect runs. -/
def answerOp (s : MCQSession) (idx oIdx : Nat) : MCQSession :=
  if s.showResults = true ∨ (s.mcqState.lookup idx).isSome = true then s
  else persistEffect { s with mcqState := s.mcqState ++ [(idx, oIdx)] }

/-- The Next button (line 253): rendered only while
`(batchIndex + 1) * BATCH_SIZE < localMcqData.length`; it increments
`batchIndex` and the persistence effect runs. -/
def nextBatchOp (s : MCQSession) : MCQSession :=
  if (s.batchIndex + 1) * BATCH_SIZE < s.localMcqData.length then
    persistEffect { s with batchIndex := s.batchIndex + 1 }
  else s

/-- The Prev button (line 251): rendered only while `batchIndex > 0`;
it decrements `batchIndex` and the persistence effect runs. -/
def prevBatchOp (s : MCQSession) : MCQSession :=
  if 0 < s.batchIndex then
    persistEffect { s with batchIndex := s.batchIndex - 1 }
  else s

/-! ### Persisted snapshot handling (lines 184-201) -/

/-- A value found in `localStorage` under the session key.
`corrupt` stands for any string `JSON.parse` rejects, `jsonNull` for the
string `"null"` (parses, but property access on `null` throws),
`emptyStr` for the empty string (present but falsy), and `value` for any
other parsed JSON value, described by the three fields the code reads
(`none` models a missing or falsy field). -/
inductive StoredVal where
  | corrupt
  | jsonNull
  | emptyStr
  | value (mcqState : Option (List (Nat × Nat))) (batchIndex : Option Nat)
      (localMcqData : Option (List MCQItem))
deriving DecidableEq, Repr

/-- The JavaScript exceptions the resume path can raise. -/
inductive JsError where
  | parseError
  | typeError
deriving DecidableEq, Repr

/-- Result of `handleResume`: either the state fields it sets, or a
thrown exception. -/
inductive ResumeOutcome where
  | ok (mcqState : List (Nat × Nat)) (batchIndex : Nat)
      (localMcqData : Option (List MCQItem))
  | thrown (e : JsError)
deriving DecidableEq, Repr

/-- Function `handleResume` of lines 196-201:
`JSON.parse(localStorage.getItem(key) || '{}')` followed by
`setMcqState(saved.mcqState || {})`, `setBatchIndex(saved.batchIndex || 0)`
and a conditional `setLocalMcqData`.  An absent or empty stored value
parses as `{}`; a non-JSON value makes `JSON.parse` throw; the JSON value
`null` makes the property access `saved.mcqState` throw. -/
def handleResume : Option StoredVal → ResumeOutcome
  | none => .ok [] 0 none
  | some .emptyStr => .ok [] 0 none
  | some .corrupt => .thrown .parseError
  | some .jsonNull => .thrown .typeError
  | some (.value m b l) => .ok (m.getD []) (b.getD 0) l

/-- The initialization effect's decision (lines 187-189):
`const saved = localStorage.getItem(key); if (saved) { setShowResumePrompt(true); ... }`.
Any present, non-empty stored string — parseable or not — triggers the
resume prompt. -/
def showsResumePrompt : Option StoredVal → Bool
  | none => false
  | some .emptyStr => false
  | some _ => true

/-! ### Session timer (lines 104-112) -/

/-- The phases of the spec's session state machine. -/
inductive Phase where
  | Loading
  | AwaitingResumeChoice
  | InProgress
  | ConfirmingSubmit
  | Completed
deriving DecidableEq, Repr

/-- The component flags that determine both the rendered phase and the
timer guard: the `loading` prop and the `showResults` / `showSubmitModal`
/ `showResumePrompt` states. -/
structure TimerFlags where
  loading : Bool
  showResults : Bool
  showSubmitModal : Bool
  showResumePrompt : Bool
deriving DecidableEq, Repr

/-- The phase abstraction of the flags: `loading` renders the loading
screen before anything else (line 137); results, the submit modal and the
resume prompt map to `Completed`, `ConfirmingSubmit` and
`AwaitingResumeChoice`; otherwise the session is `InProgress`. -/
def phaseOf (f : TimerFlags) : Phase :=
  if f.loading = true then .Loading
  else if f.showResults = true then .Completed
  else if f.showSubmitModal = true then .ConfirmingSubmit
  else if f.showResumePrompt = true then .AwaitingResumeChoice
  else .InProgress

/-- The timer guard of line 106:
`if (!showResults && !showSubmitModal && !showResumePrompt)` — the
interval incrementing `sessionTime` is installed exactly when this holds. -/
def timerActive (f : TimerFlags) : Bool :=
  !f.showResults && !f.showSubmitModal && !f.showResumePrompt

/-- One second of the interval of lines 107-109: `sessionTime` increments
by 1 when the interval is installed, and is untouched otherwise. -/
def tickSessionTime (f : TimerFlags) (sessionTime : Nat) : Nat :=
  if timerActive f = true then sessionTime + 1 else sessionTime


/-! ## Claims -/

/-- Claim C1 counterexample: the claim names `3-month` as an accepted alias
of the quarterly tier, but upper-casing `3-month` gives `3-MONTH`, which
matches none of the recognized plan strings, so a `3-month` subscriber is
denied document downloads (fail-closed), contradicting the claimed allow. -/
theorem c1_counterexample :
    checkDownloadPermission (some ⟨some "3-month"⟩) ContentKind.PDF false = false := by
  decide

/-- Claim C1 (amended): the entitlement evaluator is the decision table over
upper-cased plan tiers with the aliases spelled as in the code: weekly and
monthly are denied everything; quarterly and its aliases `3_months` and
`3 months` are allowed documents and standard video but denied premium
video; yearly, lifetime and the aliases `1_year` and `1 year` are allowed
everything; a missing user, missing plan, or unrecognized tier is denied
(fail-closed); and the decision depends only on the upper-cased plan
(case-insensitivity).  The evaluator is a total function with no side
effects. -/
theorem c1_entitlement_table : ∀ (ct : ContentKind) (iu : Bool) (p : String),
    checkDownloadPermission none ct iu = false
  ∧ checkDownloadPermission (some ⟨none⟩) ct iu = false
  ∧ (jsToUpper p = "WEEKLY" ∨ jsToUpper p = "MONTHLY" →
      checkDownloadPermission (some ⟨some p⟩) ct iu = false)
  ∧ (jsToUpper p = "QUARTERLY" ∨ jsToUpper p = "3_MONTHS" ∨ jsToUpper p = "3 MONTHS" →
        checkDownloadPermission (some ⟨some p⟩) ContentKind.PDF iu = true
      ∧ checkDownloadPermission (some ⟨some p⟩) ContentKind.VIDEO false = true
      ∧ checkDownloadPermission (some ⟨some p⟩) ContentKind.VIDEO true = false)
  ∧ (jsToUpper p = "YEARLY" ∨ jsToUpper p = "LIFETIME" ∨ jsToUpper p = "1_YEAR" ∨
        jsToUpper p = "1 YEAR" →
      checkDownloadPermission (some ⟨some p⟩) ct iu = true)
  ∧ (jsToUpper p ∉ (["WEEKLY", "MONTHLY", "QUARTERLY", "3_MONTHS", "3 MONTHS",
        "YEARLY", "LIFETIME", "1_YEAR", "1 YEAR"] : List String) →
      checkDownloadPermission (some ⟨some p⟩) ct iu = false)
  ∧ (∀ q, jsToUpper p = jsToUpper q →
      checkDownloadPermission (some ⟨some p⟩) ct iu
        = checkDownloadPermission (some ⟨some q⟩) ct iu) := by
  intro ct iu p
  refine ⟨rfl, rfl, ?_, ?_, ?_, ?_, ?_⟩
  · rintro (h | h) <;> simp [checkDownloadPermission, planDecision, h]
  · rintro (h | h | h) <;>
      refine ⟨?_, ?_, ?_⟩ <;>
      simp [checkDownloadPermission, planDecision, h]
  · rintro (h | h | h | h) <;> simp [checkDownloadPermission, planDecision, h]
  · intro h
    simp only [List.mem_cons, List.not_mem_nil, or_false] at h
    push_neg at h
    obtain ⟨h1, h2, h3, h4, h5, h6, h7, h8, h9⟩ := h
    simp [checkDownloadPermission, planDecision, h1, h2, h3, h4, h5, h6, h7, h8, h9]
  · intro q h
    simp [checkDownloadPermission, h]

/-- Claim C1 witness: the amended table evaluated at the alias `3 months`
for premium video (denied) and at `1_year` for premium video (allowed). -/
theorem c1_entitlement_table_witness :
    checkDownloadPermission (some ⟨some "3 months"⟩) ContentKind.VIDEO true = false
  ∧ checkDownloadPermission (some ⟨some "1_year"⟩) ContentKind.VIDEO true = true :=
  ⟨((c1_entitlement_table ContentKind.VIDEO true "3 months").2.2.2.1
      (Or.inr (Or.inr (by decide)))).2.2,
   (c1_entitlement_table ContentKind.VIDEO true "1_year").2.2.2.2.1
      (Or.inr (Or.inr (Or.inl (by decide))))⟩


/-- With the entitlement decision `false`, the video resolver never
produces a download URL, whatever the URL. -/
lemma resolveVideo_downloadUrl_of_not_allowed (url : String) :
    (resolveVideo url false).downloadUrl = none := by
  unfold resolveVideo
  split
  · cases h : driveIdMatch url.data <;> simp [h]
  · split <;> simp

/-- In the YouTube branch the download URL is `none` for every input. -/
lemma resolveVideo_downloadUrl_of_youtube (url : String) (c : Bool) :
    (resolveVideo url c).isYouTubeVideo = true → (resolveVideo url c).downloadUrl = none := by
  unfold resolveVideo
  split
  · cases h : driveIdMatch url.data <;> simp [h]
  · split <;> simp

/-- Claim C2 (confirmed): a download URL is populated only when the
caller-side entitlement decision is allow — the Drive video branch and
both PDF branches emit a link only if the permission check passed, and
the YouTube branch forces the download URL to be absent for every input
regardless of entitlement. -/
theorem c2_download_requires_allow : ∀ (url : String) (c : Bool),
    ((resolveVideo url c).downloadUrl ≠ none → c = true)
  ∧ ((resolveVideo url c).isYouTubeVideo = true → (resolveVideo url c).downloadUrl = none)
  ∧ (pdfDownloadLink url c ≠ none → c = true) := by
  intro url c
  refine ⟨?_, resolveVideo_downloadUrl_of_youtube url c, ?_⟩
  · intro h
    cases c
    · exact absurd (resolveVideo_downloadUrl_of_not_allowed url) h
    · rfl
  · intro h
    cases c
    · exfalso
      apply h
      simp [pdfDownloadLink]
    · rfl

/-- Claim C2 witness: a Drive URL with an entitled caller does produce a
download link (so the first hypothesis is satisfiable), a YouTube URL is
recognized as YouTube yet carries no download link, and a directly hosted
PDF with entitlement produces a link. -/
theorem c2_download_requires_allow_witness :
    (true : Bool) = true
  ∧ (resolveVideo "https://youtu.be/dQw4w9WgXcQ" true).downloadUrl = none
  ∧ (true : Bool) = true :=
  ⟨(c2_download_requires_allow "drive.google.com/AAAAAAAAAAAAAAAAAAAAAAAAA" true).1
      (by decide),
   (c2_download_requires_allow "https://youtu.be/dQw4w9WgXcQ" true).2.1 (by decide),
   (c2_download_requires_allow "x.pdf" true).2.2 (by decide)⟩

/-- Claim C4 (confirmed): submission gating compares the number of
answered questions with `min 50 N` where `N` is the pool size, and is
independent of which batch is displayed. -/
theorem c4_canSubmit_batch_independent : ∀ (s : MCQSession) (b : Nat),
    canSubmit { s with batchIndex := b } = canSubmit s
  ∧ canSubmit s = decide (Nat.min 50 s.localMcqData.length ≤ s.mcqState.length) := by
  intro s b
  exact ⟨rfl, rfl⟩

/-- Claim C6 (code bug): a persisted value that is not valid JSON is not
treated as an absent snapshot — it triggers the resume prompt, and
choosing Resume runs `JSON.parse` on it with no exception handler, so a
SyntaxError is thrown instead of the session starting fresh.  (The JSON
value `null` likewise makes the property access throw a TypeError.) -/
theorem c6_corrupt_snapshot_throws :
    handleResume (some StoredVal.corrupt) = ResumeOutcome.thrown JsError.parseError
  ∧ showsResumePrompt (some StoredVal.corrupt) = true
  ∧ handleResume (some StoredVal.jsonNull) = ResumeOutcome.thrown JsError.typeError
  ∧ handleResume none = ResumeOutcome.ok [] 0 none := by
  refine ⟨rfl, rfl, rfl, rfl⟩

/-- Claim C10 (confirmed): the document download decision ignores the
content metadata entirely — the permission check for documents is always
invoked with the premium flag `false` — so two runs differing only in the
content premium status yield the same decision, and in particular a
quarterly-plan learner may download content marked ultra/premium. -/
theorem c10_pdf_decision_premium_independent : ∀ (u : Option User) (c c2 : ContentMeta),
    pdfDecision u c = pdfDecision u c2
  ∧ pdfDecision u c = checkDownloadPermission u ContentKind.PDF false
  ∧ pdfDecision (some ⟨some "quarterly"⟩) c = true
  ∧ isUltraContent ⟨"ULTRA notes", some ["ultra"]⟩ = true := by
  intro u c c2
  refine ⟨rfl, rfl, ?_, by decide⟩
  show checkDownloadPermission (some ⟨some "quarterly"⟩) ContentKind.PDF false = true
  decide


/-- Claim C8 counterexample: while content is loading and no modal flag is
set, the timer guard of line 106 holds (it never consults `loading`), so
the elapsed-seconds counter increments during the Loading phase,
contradicting the claim that it ticks only while InProgress. -/
theorem c8_counterexample :
    phaseOf ⟨true, false, false, false⟩ = Phase.Loading
  ∧ timerActive ⟨true, false, false, false⟩ = true
  ∧ tickSessionTime ⟨true, false, false, false⟩ 7 = 8 := by
  refine ⟨rfl, rfl, rfl⟩

/-- Claim C8 (amended): the elapsed-seconds counter increments by 1 once
per second exactly when none of the results / submit-modal / resume-prompt
flags is set.  Consequently it is frozen during AwaitingResumeChoice,
ConfirmingSubmit and Completed and ticks while InProgress — but it also
ticks during the Loading phase when those flags are clear, because the
guard never consults the loading flag. -/
theorem c8_timer_guard : ∀ (f : TimerFlags) (t : Nat),
    (phaseOf f = Phase.AwaitingResumeChoice ∨ phaseOf f = Phase.ConfirmingSubmit ∨
        phaseOf f = Phase.Completed →
      tickSessionTime f t = t)
  ∧ (phaseOf f = Phase.InProgress → tickSessionTime f t = t + 1)
  ∧ (phaseOf f = Phase.Loading ∧ f.showResults = false ∧ f.showSubmitModal = false ∧
        f.showResumePrompt = false →
      tickSessionTime f t = t + 1)
  ∧ timerActive f = (!f.showResults && !f.showSubmitModal && !f.showResumePrompt) := by
  intro f t
  obtain ⟨l, sr, sm, sp⟩ := f
  cases l <;> cases sr <;> cases sm <;> cases sp <;>
    refine ⟨?_, ?_, ?_, rfl⟩ <;> intro h <;>
    simp_all [phaseOf, timerActive, tickSessionTime]

/-- Claim C8 witness: the amended guard applied with the submit modal open
(timer frozen) and in a clean InProgress state (timer ticking). -/
theorem c8_timer_guard_witness :
    tickSessionTime ⟨false, false, true, false⟩ 5 = 5
  ∧ tickSessionTime ⟨false, false, false, false⟩ 5 = 6 :=
  ⟨(c8_timer_guard ⟨false, false, true, false⟩ 5).1 (Or.inr (Or.inl (by decide))),
   (c8_timer_guard ⟨false, false, false, false⟩ 5).2.1 (by decide)⟩

/-- Claim C9 counterexample: with no answer recorded yet, pressing Next
mutates `batchIndex` but the persistence effect of lines 192-194 is
guarded by a non-empty answer map, so no snapshot write is issued for
this InProgress mutation, contradicting the claim that every
state-mutating operation writes the snapshot. -/
theorem c9_counterexample :
    (nextBatchOp ⟨[], List.replicate 51 ⟨"q", ["a", "b"], 0, "e"⟩, 0, false, none⟩).batchIndex = 1
  ∧ (nextBatchOp ⟨[], List.replicate 51 ⟨"q", ["a", "b"], 0, "e"⟩, 0, false, none⟩).store = none := by
  refine ⟨rfl, rfl⟩

/-- Claim C9 (amended): while the session is in progress, every accepted
answer issues a synchronous write of the current snapshot, and every batch
navigation issues one provided at least one answer has been recorded; a
navigation performed before the first answer does not write. -/
theorem c9_persistence_on_mutation : ∀ (s : MCQSession) (i o : Nat),
    s.showResults = false →
    ((s.mcqState.lookup i).isSome = false →
        (answerOp s i o).store =
          some ⟨s.mcqState ++ [(i, o)], s.batchIndex, s.localMcqData⟩)
  ∧ (s.mcqState ≠ [] → (s.batchIndex + 1) * BATCH_SIZE < s.localMcqData.length →
        (nextBatchOp s).store = some ⟨s.mcqState, s.batchIndex + 1, s.localMcqData⟩)
  ∧ (s.mcqState ≠ [] → 0 < s.batchIndex →
        (prevBatchOp s).store = some ⟨s.mcqState, s.batchIndex - 1, s.localMcqData⟩) := by
  intro s i o hres
  refine ⟨?_, ?_, ?_⟩
  · intro hna
    simp [answerOp, persistEffect, hres, hna]
  · intro hne hlt
    have hpos : 0 < s.mcqState.length := List.length_pos.mpr hne
    simp [nextBatchOp, persistEffect, hres, hlt, hpos]
  · intro hne hbi
    have hpos : 0 < s.mcqState.length := List.length_pos.mpr hne
    simp [prevBatchOp, persistEffect, hres, hbi, hpos]

/-- Claim C9 witness: the amended persistence contract applied to a
concrete in-progress session — an accepted answer writes the snapshot, and
a Prev navigation with one answer recorded writes the snapshot. -/
theorem c9_persistence_on_mutation_witness :
    (answerOp ⟨[], [⟨"q", ["a", "b"], 0, "e"⟩], 0, false, none⟩ 0 1).store =
      some ⟨[] ++ [(0, 1)], 0, [⟨"q", ["a", "b"], 0, "e"⟩]⟩
  ∧ (prevBatchOp ⟨[(0, 1)], [⟨"q", ["a", "b"], 0, "e"⟩], 1, false, none⟩).store =
      some ⟨[(0, 1)], 1 - 1, [⟨"q", ["a", "b"], 0, "e"⟩]⟩ :=
  ⟨(c9_persistence_on_mutation ⟨[], [⟨"q", ["a", "b"], 0, "e"⟩], 0, false, none⟩ 0 1
      (by decide)).1 (by decide),
   (c9_persistence_on_mutation ⟨[(0, 1)], [⟨"q", ["a", "b"], 0, "e"⟩], 1, false, none⟩ 0 0
      (by decide)).2.2 (by decide) (by decide)⟩

/-- Claim C3 counterexample: the answer map is keyed by position in the
shuffled session order, and scoring compares entry `k` with the question
at position `k` of that same order — so the same answer map scored against
two different display orders of the same two questions yields different
scores, contradicting the claimed order-independence. -/
theorem c3_counterexample :
    score [(0, 0)] [⟨"q0", ["a", "b"], 0, ""⟩, ⟨"q1", ["a", "b"], 1, ""⟩] = some 1
  ∧ score [(0, 0)] [⟨"q1", ["a", "b"], 1, ""⟩, ⟨"q0", ["a", "b"], 0, ""⟩] = some 0 := by
  refine ⟨rfl, rfl⟩

/-- Claim C3 (amended): answer-map entries are keyed by the question index
in the session (shuffled) order, which coincides with the on-screen
position across batches: the question rendered at slot `j` of the current
batch is the one at index `batchIndex * BATCH_SIZE + j` of `localMcqData`,
the same index under which its answer is recorded and scored.  Resuming a
consistent persisted snapshot restores the answers together with the very
same order, so the restored session scores identically; re-keying the same
answer map against a different order is not score-preserving. -/
theorem c3_session_order_keying :
    (∀ (m : List (Nat × Nat)) (b : Nat) (l : List MCQItem),
      handleResume (some (StoredVal.value (some m) (some b) (some l)))
        = ResumeOutcome.ok m b (some l))
  ∧ (∀ (s : MCQSession) (j : Nat), j < BATCH_SIZE →
      (currentBatchData s)[j]? = s.localMcqData[s.batchIndex * BATCH_SIZE + j]?) := by
  constructor
  · intro m b l
    rfl
  · intro s j hj
    unfold currentBatchData
    rw [List.getElem?_take_of_lt hj, List.getElem?_drop]

/-- Claim C3 witness: the session-order keying at a concrete state — the
question displayed at slot 1 of batch 1 is the question at index 51 of the
session order. -/
theorem c3_session_order_keying_witness :
    (currentBatchData ⟨[], List.replicate 60 ⟨"q", ["a", "b"], 0, "e"⟩, 1, false, none⟩)[1]? =
      (List.replicate 60 (⟨"q", ["a", "b"], 0, "e"⟩ : MCQItem))[1 * BATCH_SIZE + 1]? :=
  c3_session_order_keying.2 ⟨[], List.replicate 60 ⟨"q", ["a", "b"], 0, "e"⟩, 1, false, none⟩ 1
    (by decide)


/-- Unfolding of the score loop: when every answered key is in range, the
loop returns the accumulator plus the number of entries whose chosen
option equals the correct option of the question stored at that key. -/
lemma scoreGo_eq_countP (qs : List MCQItem) :
    ∀ (l : List (Nat × Nat)) (acc : Nat), (∀ kv ∈ l, kv.1 < qs.length) →
      scoreGo qs l acc
        = some (acc + l.countP (fun kv => (qs[kv.1]?).any (fun q => kv.2 == q.correctAnswer))) := by
  intro l
  induction l with
  | nil =>
    intro acc _
    simp [scoreGo]
  | cons kv rest ih =>
    intro acc h
    have hk : kv.1 < qs.length := h kv (List.mem_cons_self kv rest)
    obtain ⟨q, hq⟩ : ∃ q, qs[kv.1]? = some q := ⟨qs[kv.1], List.getElem?_eq_getElem hk⟩
    have hrest : ∀ x ∈ rest, x.1 < qs.length := fun x hx => h x (List.mem_cons_of_mem kv hx)
    have step : scoreGo qs (kv :: rest) acc
        = scoreGo qs rest (acc + if kv.2 = q.correctAnswer then 1 else 0) := by
      rw [scoreGo, hq]
    rw [step, ih _ hrest, List.countP_cons]
    have hif : (if (qs[kv.1]?).any (fun q => kv.2 == q.correctAnswer) = true then 1 else 0)
        = (if kv.2 = q.correctAnswer then 1 else 0) := by
      rw [hq]
      by_cases hc : kv.2 = q.correctAnswer <;> simp [hc]
    rw [hif]
    congr 1
    omega

/-- Claim C5 (confirmed): provided every answered key indexes into the
question list (as holds for every reachable answer map), the score equals
the count of answered entries whose selected option equals the correct
option of the question at that key; unanswered questions contribute
nothing, and any permutation of the same final answer map yields the same
score (order of answering is irrelevant). -/
theorem c5_score_characterization : ∀ (answers : List (Nat × Nat)) (qs : List MCQItem),
    (∀ kv ∈ answers, kv.1 < qs.length) →
    score answers qs
      = some (answers.countP (fun kv => (qs[kv.1]?).any (fun q => kv.2 == q.correctAnswer)))
  ∧ ∀ answers2, answers2.Perm answers → score answers2 qs = score answers qs := by
  intro answers qs h
  constructor
  · have := scoreGo_eq_countP qs answers 0 h
    simpa [score] using this
  · intro a2 hp
    have h2 : ∀ kv ∈ a2, kv.1 < qs.length := fun kv hm => h kv (hp.mem_iff.mp hm)
    show scoreGo qs a2 0 = scoreGo qs answers 0
    rw [scoreGo_eq_countP qs a2 0 h2, scoreGo_eq_countP qs answers 0 h,
      hp.countP_eq]

/-- Claim C5 witness: the characterization at a concrete two-question pool
with one correct and one wrong answer, and the permutation invariance for
the two orders of answering. -/
theorem c5_score_characterization_witness :
    score [(0, 1), (1, 1)] [⟨"qa", ["a", "b"], 0, ""⟩, ⟨"qb", ["a", "b"], 1, ""⟩]
      = some (List.countP
          (fun kv => ((([⟨"qa", ["a", "b"], 0, ""⟩, ⟨"qb", ["a", "b"], 1, ""⟩] : List MCQItem))[kv.1]?).any
            (fun q => kv.2 == q.correctAnswer))
          [(0, 1), (1, 1)])
  ∧ score [(1, 1), (0, 1)] [⟨"qa", ["a", "b"], 0, ""⟩, ⟨"qb", ["a", "b"], 1, ""⟩]
      = score [(0, 1), (1, 1)] [⟨"qa", ["a", "b"], 0, ""⟩, ⟨"qb", ["a", "b"], 1, ""⟩] :=
  ⟨(c5_score_characterization [(0, 1), (1, 1)]
      [⟨"qa", ["a", "b"], 0, ""⟩, ⟨"qb", ["a", "b"], 1, ""⟩] (by decide)).1,
   (c5_score_characterization [(0, 1), (1, 1)]
      [⟨"qa", ["a", "b"], 0, ""⟩, ⟨"qb", ["a", "b"], 1, ""⟩] (by decide)).2
      [(1, 1), (0, 1)] (by decide)⟩


/-! ### Characterization of the Drive id scanner -/

lemma all_false_of_mem {l : List Char} {p : Char → Bool} {x : Char}
    (hm : x ∈ l) (hx : p x = false) : l.all p = false := by
  cases hal : l.all p
  · rfl
  · have := List.all_eq_true.mp hal x hm
    rw [hx] at this
    exact absurd this (by simp)

lemma hasRun25_short : ∀ (l : List Char), l.length < 25 → hasRun25 l = false := by
  intro l
  induction l with
  | nil => intro _; rfl
  | cons c rest ih =>
    intro h
    have h1 : ¬ (25 ≤ (c :: rest).length) := Nat.not_le.mpr h
    have h2 : rest.length < 25 := by
      simp only [List.length_cons] at h
      omega
    simp only [hasRun25]
    rw [decide_eq_false h1, Bool.false_and, Bool.false_or]
    exact ih h2

lemma mem_take25 : ∀ (a : List Char) (c : Char) (b : List Char),
    a.length < 25 → c ∈ (a ++ c :: b).take 25 := by
  intro a c b ha
  rw [List.take_append_eq_append_take, List.take_of_length_le (Nat.le_of_lt ha)]
  apply List.mem_append_right
  obtain ⟨n, hn⟩ : ∃ n, 25 - a.length = n + 1 := ⟨25 - a.length - 1, by omega⟩
  rw [hn, List.take_succ_cons]
  exact List.mem_cons_self c _

lemma blockRun : ∀ (a : List Char) (c : Char) (b : List Char),
    a.length < 25 → tokenChar c = false → hasRun25 b = false →
    hasRun25 (a ++ c :: b) = false := by
  intro a
  induction a with
  | nil =>
    intro c b _ hc hb
    simp only [List.nil_append, hasRun25]
    have hall : ((c :: b).take 25).all tokenChar = false := by
      apply all_false_of_mem _ hc
      exact mem_take25 [] c b (by simp)
    rw [hall, Bool.and_false, Bool.false_or]
    exact hb
  | cons x a2 ih =>
    intro c b ha hc hb
    have ha2 : a2.length < 25 := by
      simp only [List.length_cons] at ha
      omega
    have hrec : hasRun25 (a2 ++ c :: b) = false := ih c b ha2 hc hb
    simp only [List.cons_append, hasRun25, List.append_eq]
    have hall : ((x :: (a2 ++ c :: b)).take 25).all tokenChar = false := by
      apply all_false_of_mem _ hc
      have he : x :: (a2 ++ c :: b) = (x :: a2) ++ c :: b := by simp
      rw [he]
      exact mem_take25 (x :: a2) c b ha
    rw [hall, Bool.and_false, Bool.false_or]
    exact hrec

lemma hasRun25_append_right : ∀ (pre X : List Char),
    hasRun25 X = true → hasRun25 (pre ++ X) = true := by
  intro pre X h
  induction pre with
  | nil => simpa using h
  | cons c p ih =>
    simp only [List.cons_append, hasRun25, List.append_eq]
    rw [ih]
    simp

lemma hasRun25_of_run : ∀ (t post : List Char), t.all tokenChar = true → 25 ≤ t.length →
    hasRun25 (t ++ post) = true := by
  intro t post hall hlen
  cases t with
  | nil => simp at hlen
  | cons c t2 =>
    simp only [List.cons_append, hasRun25]
    have hl : 25 ≤ (c :: (t2 ++ post)).length := by
      simp only [List.length_cons, List.length_append] at hlen ⊢
      omega
    have htake : (c :: (t2 ++ post)).take 25 = (c :: t2).take 25 := by
      have h0 : 25 - (c :: t2).length = 0 := by
        simp only [List.length_cons] at hlen ⊢
        omega
      rw [show c :: (t2 ++ post) = (c :: t2) ++ post by simp,
        List.take_append_eq_append_take, h0]
      simp
    have hta : ((c :: (t2 ++ post)).take 25).all tokenChar = true := by
      rw [htake]
      apply List.all_eq_true.mpr
      intro x hx
      exact List.all_eq_true.mp hall x (List.take_subset _ _ hx)
    simp only [hasRun25, List.append_eq]
    rw [decide_eq_true hl, hta]
    rfl

/-- Full description of a successful scan from the middle of a run: the
match either continues the run held in `acc` to its (maximal) end, or lies
strictly later, in which case everything before it is free of 25-windows,
the match is flanked by non-token characters, is all-token and has length
at least 25. -/
lemma firstRunAux_some_spec : ∀ (s acc t : List Char), acc.all tokenChar = true →
    firstRunAux acc s = some t →
    ((∃ ext post, t = acc.reverse ++ ext ∧ s = ext ++ post ∧ ext.all tokenChar = true ∧
        NonTokenHead post ∧ 25 ≤ t.length)
    ∨ (∃ pre post, s = pre ++ t ++ post ∧ t.all tokenChar = true ∧ 25 ≤ t.length ∧
        NonTokenHead post ∧ NonTokenTail pre ∧ hasRun25 (acc.reverse ++ pre) = false)) := by
  intro s
  induction s with
  | nil =>
    intro acc t hacc h
    left
    simp only [firstRunAux] at h
    by_cases hle : 25 ≤ acc.length
    · rw [if_pos hle] at h
      injection h with h2
      refine ⟨[], [], ?_, rfl, rfl, Or.inl rfl, ?_⟩
      · simp [h2]
      · rw [← h2]
        simpa using hle
    · rw [if_neg hle] at h
      exact absurd h (by simp)
  | cons c rest ih =>
    intro acc t hacc h
    simp only [firstRunAux] at h
    by_cases hc : tokenChar c = true
    · rw [if_pos hc] at h
      have hacc2 : (c :: acc).all tokenChar = true := by simp [hc, hacc]
      rcases ih (c :: acc) t hacc2 h with
        ⟨ext, post, ht, hs, hext, hpost, hlen⟩ | ⟨pre, post, hs, hts, hlen, hpost, hpre, hrun⟩
      · left
        refine ⟨c :: ext, post, ?_, ?_, ?_, hpost, hlen⟩
        · rw [ht]
          simp
        · rw [hs]
          rfl
        · simp [hc, hext]
      · right
        refine ⟨c :: pre, post, ?_, hts, hlen, hpost, ?_, ?_⟩
        · rw [hs]
          rfl
        · obtain ⟨d, p0, hp, hd⟩ := hpre
          exact ⟨d, c :: p0, by simp [hp], hd⟩
        · have he : acc.reverse ++ (c :: pre) = (c :: acc).reverse ++ pre := by
            simp
          rw [he]
          exact hrun
    · have hc2 : tokenChar c = false := by
        revert hc
        cases tokenChar c <;> simp
      rw [if_neg hc] at h
      by_cases hle : 25 ≤ acc.length
      · rw [if_pos hle] at h
        injection h with h2
        left
        refine ⟨[], c :: rest, ?_, rfl, rfl, Or.inr ⟨c, rest, rfl, hc2⟩, ?_⟩
        · simp [h2]
        · rw [← h2]
          simpa using hle
      · rw [if_neg hle] at h
        have hlt : acc.length < 25 := Nat.not_le.mp hle
        rcases ih [] t rfl h with
          ⟨ext, post, ht, hs, hext, hpost, hlen⟩ | ⟨pre, post, hs, hts, hlen, hpost, hpre, hrun⟩
        · right
          have ht2 : t = ext := by simpa using ht
          refine ⟨[c], post, ?_, ?_, hlen, hpost, ⟨c, [], rfl, hc2⟩, ?_⟩
          · rw [ht2, hs]
            rfl
          · rw [ht2]
            exact hext
          · have hb := blockRun acc.reverse c [] (by simpa using hlt) hc2 rfl
            simpa using hb
        · right
          refine ⟨c :: pre, post, ?_, hts, hlen, hpost, ?_, ?_⟩
          · rw [hs]
            rfl
          · obtain ⟨d, p0, hp, hd⟩ := hpre
            exact ⟨d, c :: p0, by simp [hp], hd⟩
          · have hpre0 : hasRun25 pre = false := by simpa using hrun
            exact blockRun acc.reverse c pre (by simpa using hlt) hc2 hpre0

/-- A failed scan means no 25-window of token characters exists anywhere
in the remaining input (including the run in `acc`). -/
lemma firstRunAux_none_spec : ∀ (s acc : List Char), acc.all tokenChar = true →
    firstRunAux acc s = none → hasRun25 (acc.reverse ++ s) = false := by
  intro s
  induction s with
  | nil =>
    intro acc hacc h
    simp only [firstRunAux] at h
    by_cases hle : 25 ≤ acc.length
    · rw [if_pos hle] at h
      exact absurd h (by simp)
    · rw [List.append_nil]
      exact hasRun25_short _ (by simpa using Nat.not_le.mp hle)
  | cons c rest ih =>
    intro acc hacc h
    simp only [firstRunAux] at h
    by_cases hc : tokenChar c = true
    · rw [if_pos hc] at h
      have hrec := ih (c :: acc) (by simp [hc, hacc]) h
      have he : (c :: acc).reverse ++ rest = acc.reverse ++ c :: rest := by
        simp
      rwa [he] at hrec
    · have hc2 : tokenChar c = false := by
        revert hc
        cases tokenChar c <;> simp
      rw [if_neg hc] at h
      by_cases hle : 25 ≤ acc.length
      · rw [if_pos hle] at h
        exact absurd h (by simp)
      · rw [if_neg hle] at h
        have hrest : hasRun25 rest = false := by simpa using ih [] rfl h
        exact blockRun acc.reverse c rest (by simpa using Nat.not_le.mp hle) hc2 hrest

/-- A successful `[-\w]{25,}` match is an all-token segment of length at
least 25 whose flanks are non-token (it is a maximal run) and which is the
first such run: no 25-window of token characters occurs before it. -/
lemma driveIdMatch_some_spec (s t : List Char) (h : driveIdMatch s = some t) :
    25 ≤ t.length ∧ t.all tokenChar = true ∧
    ∃ pre post, s = pre ++ t ++ post ∧ (pre = [] ∨ NonTokenTail pre) ∧
      NonTokenHead post ∧ hasRun25 pre = false := by
  rcases firstRunAux_some_spec s [] t rfl h with
    ⟨ext, post, ht, hs, hext, hpost, hlen⟩ | ⟨pre, post, hs, hts, hlen, hpost, hpre, hrun⟩
  · have ht2 : t = ext := by simpa using ht
    refine ⟨hlen, by rw [ht2]; exact hext, [], post, by simp [hs, ht2], Or.inl rfl, hpost, rfl⟩
  · exact ⟨hlen, hts, pre, post, hs, Or.inr hpre, hpost, by simpa using hrun⟩

lemma driveIdMatch_some_hasRun (s t : List Char) (h : driveIdMatch s = some t) :
    hasRun25 s = true := by
  obtain ⟨hlen, hall, pre, post, hs, -, -, -⟩ := driveIdMatch_some_spec s t h
  rw [hs, List.append_assoc]
  exact hasRun25_append_right pre (t ++ post) (hasRun25_of_run t post hall hlen)

lemma noWindow_driveIdMatch_none (s : List Char) (h : hasRun25 s = false) :
    driveIdMatch s = none := by
  cases hm : driveIdMatch s with
  | none => rfl
  | some t =>
    rw [driveIdMatch_some_hasRun s t hm] at h
    exact absurd h (by simp)

/-- Claim C7 (confirmed): Drive resolution extracts the first contiguous
(maximal) token of 25 or more word-characters/hyphens; on success, for a
Drive-domain URL the embed URL is exactly
`https://drive.google.com/file/d/<id>/preview` and the download URL —
populated only when entitled — is exactly
`https://drive.google.com/u/0/uc?id=<id>&export=download`, both containing
exactly the extracted token.  When no such token exists the match is
`none` and the URL is left unresolved (embed unchanged, no download URL);
every involved function is total, so nothing is thrown. -/
theorem c7_drive_resolution : ∀ (url : String) (c : Bool),
    (∀ id, driveIdMatch url.data = some id →
        (25 ≤ id.length ∧ id.all tokenChar = true ∧
          ∃ pre post, url.data = pre ++ id ++ post ∧ (pre = [] ∨ NonTokenTail pre) ∧
            NonTokenHead post ∧ hasRun25 pre = false)
      ∧ (jsIncludes url "drive.google.com" = true →
          (resolveVideo url c).embedUrl
              = "https://drive.google.com/file/d/" ++ String.mk id ++ "/preview"
          ∧ (resolveVideo url c).downloadUrl
              = (if c = true then
                  some ("https://drive.google.com/u/0/uc?id=" ++ String.mk id
                    ++ "&export=download")
                 else none))
      ∧ getDriveDownloadLink url
          = some ("https://drive.google.com/u/0/uc?id=" ++ String.mk id ++ "&export=download"))
  ∧ (hasRun25 url.data = false →
        driveIdMatch url.data = none
      ∧ getDriveDownloadLink url = none
      ∧ (jsIncludes url "drive.google.com" = true →
          (resolveVideo url c).embedUrl = url ∧ (resolveVideo url c).downloadUrl = none)) := by
  intro url c
  constructor
  · intro id hid
    refine ⟨driveIdMatch_some_spec url.data id hid, ?_, ?_⟩
    · intro hinc
      unfold resolveVideo
      rw [if_pos hinc, hid]
      exact ⟨rfl, rfl⟩
    · unfold getDriveDownloadLink
      rw [hid]
      rfl
  · intro hnw
    have hnone := noWindow_driveIdMatch_none url.data hnw
    refine ⟨hnone, ?_, ?_⟩
    · unfold getDriveDownloadLink
      rw [hnone]
      rfl
    · intro hinc
      unfold resolveVideo
      rw [if_pos hinc, hnone]
      exact ⟨rfl, rfl⟩

/-- Claim C7 witness: a Drive URL carrying a 30-character token resolves
to the canonical preview and export-download forms containing exactly that
token, and a URL with no 25-character token yields no match and no
download link. -/
theorem c7_drive_resolution_witness :
    ((resolveVideo "https://drive.google.com/file/d/AAAAAAAAAAAAAAAAAAAAAAAAAAAAAA/view" true).embedUrl
        = "https://drive.google.com/file/d/"
            ++ String.mk ("AAAAAAAAAAAAAAAAAAAAAAAAAAAAAA".data) ++ "/preview")
  ∧ driveIdMatch ("https://drive.google.com/open".data) = none :=
  ⟨((((c7_drive_resolution
        "https://drive.google.com/file/d/AAAAAAAAAAAAAAAAAAAAAAAAAAAAAA/view" true).1
      ("AAAAAAAAAAAAAAAAAAAAAAAAAAAAAA".data) (by decide)).2.1) (by decide)).1,
   ((c7_drive_resolution "https://drive.google.com/open" true).2 (by decide)).1⟩

end LessonView
